import Mathlib

/-!
Shallow embedding of the MediaCore CE JSON category API controller
(`mediacore/controllers/api/categories.py`) and proofs about its contract.

Conventions of the embedding:
* A Python dict result is modelled by `ApiResponse`; the variant
  `ApiResponse.error msg` is the structured payload carrying an `error` field.
* An exception that escapes a controller method (the controller methods have
  no surrounding try/except for `APIException`) is modelled by the `Except.error`
  side of `Except String ApiResponse`; a normal returned dict is `Except.ok`.
* Python integers are `Int` (so that negative parameter values are representable),
  string parameters are `String`, and optional keyword parameters are `Option` types.
* Python truthiness of the optional lookup parameters (`if id: ... elif name: ...`)
  is made explicit by `intTruthy` and `strTruthy`: `None`, `0` and the empty
  string are falsy.
-/

/-- A row of the `categories` table, as used by the controller: `Category.id`,
`Category.name`, `Category.slug`, the raw foreign key `parent_id` (NULL for a
root category) and the derived `media_count_published` column. -/
structure Category where
  id : Int
  name : String
  slug : String
  parent_id : Option Int
  media_count_published : Nat
deriving Repr, DecidableEq

/-- The ORM relation `Category.children`: all rows whose `parent_id` points at
this category. The database is modelled as the list of all rows. -/
def childrenOf (db : List Category) (c : Category) : List Category :=
  db.filter (fun x => x.parent_id = some c.id)

/-- The ORM query `Category.query.roots()`: categories without a parent. -/
def rootsOf (db : List Category) : List Category :=
  db.filter (fun x => x.parent_id = none)

/-- A JSON-ready category record as produced by `_info` and `_expand`:
the fields `id`, `name`, `slug`, `parent`, `media_count`, plus an optional
`children` key (absent -- `none` -- when the record was not expanded). -/
inductive CatRecord where
  | mk (id : Int) (name : String) (slug : String) (parent : Option Int)
       (media_count : Nat) (children : Option (List CatRecord))

/-- Projection of the optional `children` key of a record. -/
def CatRecord.children : CatRecord → Option (List CatRecord)
  | ⟨_, _, _, _, _, cs⟩ => cs

/-- Projection of the `id` field of a record. -/
def CatRecord.id : CatRecord → Int
  | ⟨i, _, _, _, _, _⟩ => i

/-- Projection of the `name` field of a record. -/
def CatRecord.name : CatRecord → String
  | ⟨_, n, _, _, _, _⟩ => n

/-- Projection of the `slug` field of a record. -/
def CatRecord.slug : CatRecord → String
  | ⟨_, _, s, _, _, _⟩ => s

/-- Projection of the `parent` field of a record. -/
def CatRecord.parent : CatRecord → Option Int
  | ⟨_, _, _, p, _, _⟩ => p

/-- Projection of the `media_count` field of a record. -/
def CatRecord.media_count : CatRecord → Nat
  | ⟨_, _, _, _, m, _⟩ => m

/-- The mutation `data['children'] = cs` on a record. -/
def CatRecord.setChildren : CatRecord → List CatRecord → CatRecord
  | ⟨i, n, s, p, m, _⟩, cs => ⟨i, n, s, p, m, some cs⟩

/-- `CategoriesController._info`: the JSON-ready dict for one category.
The `parent` field is the raw `cat.parent_id` foreign key value and
`media_count` is `cat.media_count_published`; no `children` key is present. -/
def info (cat : Category) : CatRecord :=
  ⟨cat.id, cat.name, cat.slug, cat.parent_id, cat.media_count_published, none⟩

/-- `CategoriesController._expand` on a single `Category` instance:
produce the `_info` record and, when `children and depth > 0`, add a
`children` key holding the expansion of the ORM children at `depth - 1`. -/
def expand (db : List Category) (c : Category) (children : Bool) (depth : Int) :
    CatRecord :=
  let data := info c
  if h : children ∧ 0 < depth then
    data.setChildren ((childrenOf db c).map (fun x => expand db x children (depth - 1)))
  else
    data
termination_by depth.toNat
decreasing_by
  simp_wf
  omega

/-- `CategoriesController._expand` on a list argument: the list comprehension
`[self._expand(x, children, depth) for x in obj]`. -/
def expandList (db : List Category) (cs : List Category) (children : Bool)
    (depth : Int) : List CatRecord :=
  cs.map (fun x => expand db x children depth)

mutual

/-- Nesting depth of a record: 0 when no `children` key is present, otherwise
one more than the deepest child. Used to state the depth bound of `_expand`. -/
def nestDepth : CatRecord → Nat
  | ⟨_, _, _, _, _, none⟩ => 0
  | ⟨_, _, _, _, _, some cs⟩ => nestDepthList cs + 1

/-- Nesting depth of a list of records: the maximum over the list. -/
def nestDepthList : List CatRecord → Nat
  | [] => 0
  | r :: rs => max (nestDepth r) (nestDepthList rs)

end

/-- Fuel-indexed variant of `_expand`, used only to state and prove that the
recursion of `expand` is depth-bounded: with any fuel exceeding the depth the
fuel is never exhausted. `none` means the fuel ran out. -/
def expandFuel (fuel : Nat) (db : List Category) (c : Category) (children : Bool)
    (depth : Int) : Option CatRecord :=
  match fuel with
  | 0 => none
  | fuel + 1 =>
    let data := info c
    if children ∧ 0 < depth then
      match (childrenOf db c).mapM (fun x => expandFuel fuel db x children (depth - 1)) with
      | some cs => some (data.setChildren cs)
      | none => none
    else
      some data

/-- The allow-listed ORDER BY columns of the module-level `order_columns` dict:
`id`, `name`, `slug` and the derived `media_count`. -/
inductive OrderCol where
  | id
  | name
  | slug
  | media_count
deriving Repr, DecidableEq

/-- A parsed order specification: a column of the allow-list and a direction. -/
structure OrderBy where
  col : OrderCol
  descending : Bool
deriving Repr, DecidableEq

/-- Lookup of a column name in the `order_columns` dict of the module. -/
def orderColumns : String → Option OrderCol
  | "id" => some .id
  | "name" => some .name
  | "slug" => some .slug
  | "media_count" => some .media_count
  | _ => none

/-- Auxiliary accumulator for `splitOnSpace`. -/
def splitOnSpaceAux : List Char → List Char → List String
  | [], acc => [String.mk acc.reverse]
  | c :: cs, acc =>
    if c = ' ' then String.mk acc.reverse :: splitOnSpaceAux cs []
    else splitOnSpaceAux cs (c :: acc)

/-- Splitting a string at single spaces, Python's `str.split(' ')`. -/
def splitOnSpace (s : String) : List String :=
  splitOnSpaceAux s.toList []

/-- Modelled from the spec: `get_order_by` is defined in
`mediacore/controllers/api/__init__.py`, which is not part of this excerpt
(only its import and call site are). Per the spec, `order` is a string
"column asc-or-desc" whose column is restricted to the allow-list of
`order_columns`; an unrecognized column or a malformed string fails fast with
an `APIException` (the `Except.error` side), with no fallback ordering. -/
def get_order_by (order : String) : Except String OrderBy :=
  match splitOnSpace order with
  | [col, dir] =>
    if dir = "asc" ∨ dir = "desc" then
      match orderColumns col with
      | some c => .ok ⟨c, dir = "desc"⟩
      | none => .error ("Invalid order column: " ++ col)
    else
      .error ("Invalid order format: " ++ order)
  | _ => .error ("Invalid order format: " ++ order)

/-- Comparison of two rows under one column of the allow-list. -/
def colLe : OrderCol → Category → Category → Bool
  | .id, a, b => a.id ≤ b.id
  | .name, a, b => a.name ≤ b.name
  | .slug, a, b => a.slug ≤ b.slug
  | .media_count, a, b => a.media_count_published ≤ b.media_count_published

/-- Comparison of two rows under a full order specification. -/
def catLe (ob : OrderBy) (a b : Category) : Bool :=
  if ob.descending then colLe ob.col b a else colLe ob.col a b

/-- Sorted insertion, the auxiliary step of `sortCats`. -/
def insertSorted (le : Category → Category → Bool) (c : Category) :
    List Category → List Category
  | [] => [c]
  | x :: xs => if le c x then c :: x :: xs else x :: insertSorted le c xs

/-- The ORDER BY applied by the relational store: modelled as an insertion
sort by the requested column and direction. -/
def sortCats (le : Category → Category → Bool) : List Category → List Category
  | [] => []
  | x :: xs => insertSorted le x (sortCats le xs)

/-- The external configuration consumed by the controller:
`api_secret_key_required`, `api_secret_key`, `api_media_max_results` and
`api_tree_max_depth` from `request.settings`. -/
structure Settings where
  api_secret_key_required : Bool
  api_secret_key : String
  api_media_max_results : Int
  api_tree_max_depth : Int
deriving Repr, DecidableEq

/-- A JSON-ready dict returned by a controller method: either the structured
error payload (a dict with an `error` field), a single-category dict (the
`category` field of `_get_query`), or a listing dict (the `categories` and
`count` fields of `_index_query`). -/
inductive ApiResponse where
  | error (msg : String)
  | category (c : CatRecord)
  | listing (categories : List CatRecord) (count : Nat)

/-- The `count` field of a listing response, when present. -/
def ApiResponse.countOf : ApiResponse → Option Nat
  | .listing _ n => some n
  | _ => none

/-- The number of category records in a listing response. -/
def ApiResponse.numCategories : ApiResponse → Nat
  | .listing cs _ => cs.length
  | _ => 0

/-- Python truthiness of the optional integer parameter `id`:
`None` and `0` are falsy. -/
def intTruthy : Option Int → Bool
  | none => false
  | some i => i ≠ 0

/-- Python truthiness of an optional string parameter: `None` and the empty
string are falsy. -/
def strTruthy : Option String → Bool
  | none => false
  | some s => s ≠ ""

/-- The ORM filter `query.filter_by(id=id)`. -/
def filter_by_id (db : List Category) (id : Int) : List Category :=
  db.filter (fun c => c.id = id)

/-- The ORM filter `query.filter_by(name=name)`. -/
def filter_by_name (db : List Category) (name : String) : List Category :=
  db.filter (fun c => c.name = name)

/-- The ORM filter `query.filter_by(slug=slug)`; the argument may be `None`
(the final `else` branch of `_get_query` passes `slug` unchecked), in which
case no row matches, the `slug` column being NOT NULL. -/
def filter_by_slug (db : List Category) (slug : Option String) : List Category :=
  db.filter (fun c => some c.slug = slug)

/-- The filter chain of `_get_query`: `if id: ... elif name: ... else: ...`
with Python truthiness, filtering by the first truthy key in the priority
order `id`, `name`, `slug`. -/
def lookup_query (db : List Category) (id : Option Int) (name : Option String)
    (slug : Option String) : List Category :=
  if intTruthy id then filter_by_id db (id.getD 0)
  else if strTruthy name then filter_by_name db (name.getD "")
  else filter_by_slug db slug

/-- The ORM call `query.one()`: the sole matching row, or an exception
(`NoResultFound` / `MultipleResultsFound`) when there are zero or several. -/
def query_one (rows : List Category) : Except Unit Category :=
  match rows with
  | [x] => .ok x
  | _ => .error ()

/-- The depth clamp `min(int(depth), int(request.settings['api_tree_max_depth']))`
shared by `_get_query` and `_index_query`. -/
def clampDepth (st : Settings) (depth : Int) : Int :=
  min depth st.api_tree_max_depth

/-- `CategoriesController._get_query`: clamp the depth, filter by the first
truthy key among `id`, `name`, `slug`, then `query.one()`; zero or several
matches are caught and turned into the structured payload with
`error = "No Match found"`; a unique match is expanded (with children when
`tree` is true) and returned under the `category` field. -/
def get_query (st : Settings) (db : List Category) (id : Option Int)
    (name : Option String) (slug : Option String) (tree : Bool) (depth : Int) :
    ApiResponse :=
  let depth := clampDepth st depth
  match query_one (lookup_query db id name slug) with
  | .error _ => .error "No Match found"
  | .ok category => .category (expand db category tree depth)

/-- The defaulting `if not order: order = 'id asc'` of `_index_query`:
a missing or empty (falsy) order string becomes "id asc". -/
def effOrder : Option String → String
  | none => "id asc"
  | some s => if s = "" then "id asc" else s

/-- `CategoriesController._index_query`: choose the root-only or full query,
default the order to "id asc" when the `order` argument is falsy, parse it
with `get_order_by` (whose `APIException` is NOT caught here and escapes as
`Except.error`), clamp `limit` and `depth`, count all matches before
pagination, then apply offset and limit and expand the page. -/
def index_query (st : Settings) (db : List Category) (order : Option String)
    (offset : Int) (limit : Int) (tree : Bool) (depth : Int) :
    Except String ApiResponse :=
  let query := if tree then rootsOf db else db
  match get_order_by (effOrder order) with
  | .error e => .error e
  | .ok ob =>
    let query := sortCats (catLe ob) query
    let start := offset
    let limit := min limit st.api_media_max_results
    let depth := clampDepth st depth
    let count := query.length
    let page := (query.drop start.toNat).take limit.toNat
    .ok (.listing (expandList db page tree depth) count)

/-- `CategoriesController.index` (the `list_categories` endpoint): the api-key
check, then dispatch to `_get_query` when any of the `id`, `slug`, `name`
keyword arguments is present (with `tree=False` and the default `depth=10`;
the forwarded `offset` and `limit` are dead parameters of `_get_query`),
otherwise the flat `_index_query`. -/
def index (st : Settings) (db : List Category) (order : Option String)
    (offset : Int) (limit : Int) (api_key : Option String) (id : Option Int)
    (name : Option String) (slug : Option String) : Except String ApiResponse :=
  if st.api_secret_key_required ∧ api_key ≠ some st.api_secret_key then
    .ok (.error "Authentication Error")
  else if id.isSome ∨ slug.isSome ∨ name.isSome then
    .ok (get_query st db id name slug false 10)
  else
    index_query st db order offset limit false 10

/-- `CategoriesController.tree` (the `tree_categories` endpoint): the api-key
check, then dispatch to `_get_query` with `tree=True` and the given depth when
any of the `id`, `slug`, `name` keyword arguments is present, otherwise
`_index_query` with `tree=True` and the defaults `order=None`, `offset=0`,
`limit=10`. -/
def tree (st : Settings) (db : List Category) (depth : Int)
    (api_key : Option String) (id : Option Int) (name : Option String)
    (slug : Option String) : Except String ApiResponse :=
  if st.api_secret_key_required ∧ api_key ≠ some st.api_secret_key then
    .ok (.error "Authentication Error")
  else if id.isSome ∨ slug.isSome ∨ name.isSome then
    .ok (get_query st db id name slug true depth)
  else
    index_query st db none 0 10 true depth

/-! Helper lemmas about the embedded definitions. -/

/-- Unfolding of `expand` when the children branch is taken. -/
lemma expand_pos (db : List Category) (c : Category) (ch : Bool) (d : Int)
    (hch : ch = true) (hd : 0 < d) :
    expand db c ch d =
      (info c).setChildren (expandList db (childrenOf db c) ch (d - 1)) := by
  unfold expand
  rw [dif_pos ⟨hch, hd⟩]
  rfl

/-- Unfolding of `expand` when the children branch is not taken. -/
lemma expand_not (db : List Category) (c : Category) (ch : Bool) (d : Int)
    (h : ¬(ch = true ∧ 0 < d)) :
    expand db c ch d = info c := by
  unfold expand
  rw [dif_neg h]

/-- The `children` key of a bare `_info` record is absent. -/
lemma children_info (c : Category) : (info c).children = none := rfl

/-- `nestDepth` after `setChildren` on an `_info` record. -/
lemma nestDepth_setChildren (c : Category) (L : List CatRecord) :
    nestDepth ((info c).setChildren L) = nestDepthList L + 1 := rfl

/-- `nestDepthList` is bounded by any bound on the members. -/
lemma nestDepthList_le (m : Nat) :
    ∀ L : List CatRecord, (∀ r ∈ L, nestDepth r ≤ m) → nestDepthList L ≤ m := by
  intro L
  induction L with
  | nil => intro _; simp [nestDepthList]
  | cons r rs ih =>
    intro h
    simp only [nestDepthList, max_le_iff]
    exact ⟨h r (by simp), ih (fun x hx => h x (by simp [hx]))⟩

/-- The nesting depth of an expansion never exceeds the requested depth. -/
lemma nestDepth_expand_le (db : List Category) :
    ∀ (n : Nat) (c : Category) (ch : Bool) (d : Int), d.toNat ≤ n →
      nestDepth (expand db c ch d) ≤ d.toNat := by
  intro n
  induction n with
  | zero =>
    intro c ch d hd
    have h0 : ¬(ch = true ∧ 0 < d) := by
      rintro ⟨-, hpos⟩
      omega
    rw [expand_not db c ch d h0]
    simp [info, nestDepth]
  | succ n ih =>
    intro c ch d hd
    by_cases h : ch = true ∧ 0 < d
    · rw [expand_pos db c ch d h.1 h.2, nestDepth_setChildren]
      have hbound : nestDepthList (expandList db (childrenOf db c) ch (d - 1)) ≤
          (d - 1).toNat := by
        apply nestDepthList_le
        intro r hr
        simp only [expandList, List.mem_map] at hr
        obtain ⟨x, -, hx⟩ := hr
        rw [← hx]
        exact ih x ch (d - 1) (by omega)
      omega
    · rw [expand_not db c ch d h]
      simp [info, nestDepth]

/-- `query.one()` raises when the row count is not exactly 1. -/
lemma query_one_error_of_length (rows : List Category) (h : rows.length ≠ 1) :
    query_one rows = .error () := by
  match rows with
  | [] => rfl
  | [x] => simp at h
  | x :: y :: rest => rfl

/-- Sorted insertion adds exactly one element. -/
lemma length_insertSorted (le : Category → Category → Bool) (c : Category) :
    ∀ l : List Category, (insertSorted le c l).length = l.length + 1 := by
  intro l
  induction l with
  | nil => rfl
  | cons x xs ih =>
    simp only [insertSorted]
    by_cases h : le c x = true
    · rw [if_pos h]
      simp
    · rw [if_neg h]
      simp [ih]

/-- The ORDER BY permutes the rows, so it preserves the row count. -/
lemma length_sortCats (le : Category → Category → Bool) :
    ∀ l : List Category, (sortCats le l).length = l.length := by
  intro l
  induction l with
  | nil => rfl
  | cons x xs ih => simp [sortCats, length_insertSorted, ih]

/-! Claim theorems. -/

/-- Claim C2: whenever `api_secret_key_required` is set and the supplied
`api_key` differs from `api_secret_key` (a missing key included), both
endpoints return the structured payload `error = "Authentication Error"`,
whatever the other parameters and whatever the stored categories. -/
theorem auth_failure_is_error (st : Settings) (db : List Category)
    (order : Option String) (offset limit depth : Int) (api_key : Option String)
    (id : Option Int) (name slug : Option String)
    (hreq : st.api_secret_key_required = true)
    (hkey : api_key ≠ some st.api_secret_key) :
    index st db order offset limit api_key id name slug =
      .ok (.error "Authentication Error") ∧
    tree st db depth api_key id name slug =
      .ok (.error "Authentication Error") := by
  constructor
  · unfold index
    rw [if_pos ⟨hreq, hkey⟩]
  · unfold tree
    rw [if_pos ⟨hreq, hkey⟩]

/-- Claim C8: the `_info` record of any category consists of exactly the
fields `id`, `name`, `slug`, `parent` and `media_count` (and no `children`
key), where `parent` is the raw integer `parent_id` foreign key value —
`none` for a root category — and never the parent's slug. -/
theorem info_exact_fields (cat : Category) :
    (info cat).id = cat.id ∧
    (info cat).name = cat.name ∧
    (info cat).slug = cat.slug ∧
    (info cat).parent = cat.parent_id ∧
    (info cat).media_count = cat.media_count_published ∧
    (info cat).children = none :=
  ⟨rfl, rfl, rfl, rfl, rfl, rfl⟩

/-- Claim C1: a lookup through either endpoint (any of `id`, `slug`, `name`
supplied) whose chosen filter matches zero rows or more than one row returns
the structured payload `error = "No Match found"`; the ORM exception is caught
inside `_get_query`, so the operation still returns normally (`Except.ok`). -/
theorem lookup_no_match_is_error (st : Settings) (db : List Category)
    (order : Option String) (offset limit depth : Int) (api_key : Option String)
    (id : Option Int) (name slug : Option String)
    (hauth : ¬(st.api_secret_key_required ∧ api_key ≠ some st.api_secret_key))
    (hpresent : id.isSome ∨ slug.isSome ∨ name.isSome)
    (hmulti : (lookup_query db id name slug).length ≠ 1) :
    index st db order offset limit api_key id name slug =
      .ok (.error "No Match found") ∧
    tree st db depth api_key id name slug =
      .ok (.error "No Match found") := by
  have hget : ∀ t : Bool, ∀ d : Int, get_query st db id name slug t d = .error "No Match found" := by
    intro t d
    unfold get_query
    rw [query_one_error_of_length _ hmulti]
  constructor
  · unfold index
    rw [if_neg hauth, if_pos hpresent, hget]
  · unfold tree
    rw [if_neg hauth, if_pos hpresent, hget]

/-- Claim C3: expanding a single category with children requested: at effective
depth 0 the produced record has no `children` key at all, and at a positive
depth `n` the nesting never exceeds `n` levels, the children being expanded at
exactly `n - 1`. -/
theorem expand_depth_zero_and_bound (db : List Category) (c : Category) (n : Int) :
    (expand db c true 0).children = none ∧
    (0 < n →
      nestDepth (expand db c true n) ≤ n.toNat ∧
      expand db c true n =
        (info c).setChildren (expandList db (childrenOf db c) true (n - 1))) := by
  constructor
  · rw [expand_not db c true 0 (by simp)]
    rfl
  · intro hn
    exact ⟨nestDepth_expand_le db n.toNat c true n le_rfl,
      expand_pos db c true n rfl hn⟩

/-- Claim C3 witness: concrete two-category store, depth 1. -/
theorem expand_depth_zero_and_bound_witness :
    (0 : Int) < 1 ∧
    nestDepth (expand [⟨1, "News", "news", none, 3⟩, ⟨2, "Sports", "sports", some 1, 2⟩]
      ⟨1, "News", "news", none, 3⟩ true 1) ≤ (1 : Int).toNat ∧
    expand [⟨1, "News", "news", none, 3⟩, ⟨2, "Sports", "sports", some 1, 2⟩]
      ⟨1, "News", "news", none, 3⟩ true 1 =
      (info ⟨1, "News", "news", none, 3⟩).setChildren
        (expandList [⟨1, "News", "news", none, 3⟩, ⟨2, "Sports", "sports", some 1, 2⟩]
          (childrenOf [⟨1, "News", "news", none, 3⟩, ⟨2, "Sports", "sports", some 1, 2⟩]
            ⟨1, "News", "news", none, 3⟩) true 0) :=
  ⟨by decide,
    (expand_depth_zero_and_bound
      [⟨1, "News", "news", none, 3⟩, ⟨2, "Sports", "sports", some 1, 2⟩]
      ⟨1, "News", "news", none, 3⟩ 1).2 (by decide)⟩

/-! Concrete fixtures used by the witnesses. -/

/-- A configuration with the api key check disabled. -/
def stOpen : Settings := ⟨false, "sekrit", 50, 10⟩

/-- A configuration with the api key check enabled. -/
def stAuth : Settings := ⟨true, "sekrit", 50, 10⟩

/-- A root category. -/
def catNews : Category := ⟨1, "News", "news", none, 3⟩

/-- A child of `catNews`. -/
def catSports : Category := ⟨2, "Sports", "sports", some 1, 2⟩

/-- A root category sharing its name with `catDup2`. -/
def catDup1 : Category := ⟨3, "Dup", "dup-a", none, 0⟩

/-- A root category sharing its name with `catDup1`. -/
def catDup2 : Category := ⟨4, "Dup", "dup-b", none, 0⟩

/-- The demo category store. -/
def dbDemo : List Category := [catNews, catSports, catDup1, catDup2]

/-- Claim C1 witness: looking up the nonexistent slug "missing" (zero matches)
through both endpoints of the demo store returns the no-match payload. -/
theorem lookup_no_match_is_error_witness :
    (¬(stOpen.api_secret_key_required ∧ (none : Option String) ≠ some stOpen.api_secret_key)) ∧
    (lookup_query dbDemo none none (some "missing")).length ≠ 1 ∧
    index stOpen dbDemo none 0 10 none none none (some "missing") =
      .ok (.error "No Match found") ∧
    tree stOpen dbDemo 10 none none none (some "missing") =
      .ok (.error "No Match found") :=
  ⟨by decide, by decide,
    lookup_no_match_is_error stOpen dbDemo none 0 10 10 none none none (some "missing")
      (by decide) (by decide) (by decide)⟩

/-- Claim C2 witness: with the key check enabled and no api key supplied, both
endpoints of the demo store return the authentication error payload. -/
theorem auth_failure_is_error_witness :
    stAuth.api_secret_key_required = true ∧
    (none : Option String) ≠ some stAuth.api_secret_key ∧
    index stAuth dbDemo none 0 10 none none none none =
      .ok (.error "Authentication Error") ∧
    tree stAuth dbDemo 10 none none none none =
      .ok (.error "Authentication Error") :=
  ⟨by decide, by decide,
    auth_failure_is_error stAuth dbDemo none 0 10 10 none none none none
      (by decide) (by decide)⟩

/-- Pointwise successful `Option.mapM` over a list collects the results. -/
lemma mapM_eq_some_map {α β : Type} (f : α → Option β) (g : α → β) :
    ∀ cs : List α, (∀ x ∈ cs, f x = some (g x)) → cs.mapM f = some (cs.map g) := by
  intro cs
  induction cs with
  | nil => intro _; rfl
  | cons x xs ih =>
    intro h
    rw [List.mapM_cons, h x (by simp), ih (fun y hy => h y (by simp [hy]))]
    rfl

/-- With fuel exceeding the depth, the fuel-indexed expansion never runs out
and agrees with `expand`: the recursion of `_expand` is depth-bounded. -/
lemma expandFuel_eq_expand (db : List Category) (ch : Bool) :
    ∀ (fuel : Nat) (c : Category) (d : Int), d.toNat < fuel →
      expandFuel fuel db c ch d = some (expand db c ch d) := by
  intro fuel
  induction fuel with
  | zero =>
    intro c d hd
    omega
  | succ fuel ih =>
    intro c d hd
    by_cases h : ch = true ∧ 0 < d
    · have hmap : (childrenOf db c).mapM (fun x => expandFuel fuel db x ch (d - 1)) =
          some ((childrenOf db c).map (fun x => expand db x ch (d - 1))) :=
        mapM_eq_some_map _ _ _ (fun x _ => ih x (d - 1) (by omega))
      rw [expand_pos db c ch d h.1 h.2]
      simp only [expandFuel]
      rw [if_pos h, hmap]
      simp [expandList]
    · rw [expand_not db c ch d h]
      simp only [expandFuel]
      rw [if_neg h]

/-- Claim C9: the recursive expansion is a total, depth-bounded function:
any fuel exceeding the (clamped) depth suffices — each recursive step expands
the children at exactly `depth - 1`, and no recursion happens once the depth
is no longer positive. -/
theorem expand_total_depth_bounded (db : List Category) (c : Category)
    (ch : Bool) (d : Int) (fuel : Nat) (hf : d.toNat < fuel) :
    expandFuel fuel db c ch d = some (expand db c ch d) ∧
    (ch = true → 0 < d →
      expand db c ch d =
        (info c).setChildren (expandList db (childrenOf db c) ch (d - 1))) ∧
    (d ≤ 0 → expand db c ch d = info c) :=
  ⟨expandFuel_eq_expand db ch fuel c d hf,
    fun hch hd => expand_pos db c ch d hch hd,
    fun hd => expand_not db c ch d (by omega)⟩

/-- Claim C9 witness: fuel 2 already suffices for a depth-1 expansion of the
demo store. -/
theorem expand_total_depth_bounded_witness :
    (1 : Int).toNat < 2 ∧
    expandFuel 2 dbDemo catNews true 1 = some (expand dbDemo catNews true 1) :=
  ⟨by decide, (expand_total_depth_bounded dbDemo catNews true 1 2 (by decide)).1⟩

/-- Claim C4: the `count` field of a listing is computed before pagination:
whenever `_index_query` returns normally, `count` equals the total number of
matching rows — all categories, or only the parentless roots when `tree` is
requested — and is therefore identical under any two offset/limit pairs. -/
theorem count_ignores_pagination (st : Settings) (db : List Category)
    (order : Option String) (offset limit offset' limit' : Int) (tr : Bool)
    (depth : Int) (resp : ApiResponse)
    (h : index_query st db order offset limit tr depth = .ok resp) :
    resp.countOf = some ((if tr then rootsOf db else db).length) ∧
    (index_query st db order offset limit tr depth).map ApiResponse.countOf =
      (index_query st db order offset' limit' tr depth).map ApiResponse.countOf := by
  unfold index_query at h ⊢
  revert h
  cases hob : get_order_by (effOrder order) with
  | error e =>
    intro h
    exact Except.noConfusion h
  | ok ob =>
    intro h
    have hr := Except.ok.inj h
    constructor
    · rw [← hr]
      simp [ApiResponse.countOf, length_sortCats]
    · rfl

/-- The listing the tree endpoint produces on the demo store at depth 10. -/
def respTreeDemo : ApiResponse :=
  .listing
    [⟨1, "News", "news", none, 3, some [⟨2, "Sports", "sports", some 1, 2, some []⟩]⟩,
     ⟨3, "Dup", "dup-a", none, 0, some []⟩,
     ⟨4, "Dup", "dup-b", none, 0, some []⟩]
    3

/-- Claim C4 witness: on the demo store the tree listing counts the 3 roots,
and the count is the same under pagination (0, 10) and (5, 7). -/
theorem count_ignores_pagination_witness :
    index_query stOpen dbDemo none 0 10 true 10 = .ok respTreeDemo ∧
    respTreeDemo.countOf = some ((if true then rootsOf dbDemo else dbDemo).length) ∧
    (index_query stOpen dbDemo none 0 10 true 10).map ApiResponse.countOf =
      (index_query stOpen dbDemo none 5 7 true 10).map ApiResponse.countOf := by
  have hob : get_order_by (effOrder none) = .ok ⟨OrderCol.id, false⟩ := rfl
  have h : index_query stOpen dbDemo none 0 10 true 10 = .ok respTreeDemo := by
    simp [index_query, hob, sortCats, insertSorted,
      catLe, colLe, rootsOf, dbDemo, catNews, catSports, catDup1, catDup2, stOpen,
      clampDepth, expandList, expand, info, childrenOf, CatRecord.setChildren,
      respTreeDemo]
  have r := count_ignores_pagination stOpen dbDemo none 0 10 5 7 true 10 respTreeDemo h
  exact ⟨h, r.1, r.2⟩

/-- Claim C6: a listing never returns more records than the configured
`api_media_max_results`: the page is cut at `min(limit, api_media_max_results)`,
so its size is bounded by the requested limit and by the configured maximum,
whatever limit the caller asked for. -/
theorem limit_never_exceeds_max (st : Settings) (db : List Category)
    (order : Option String) (offset limit : Int) (tr : Bool) (depth : Int)
    (resp : ApiResponse)
    (h : index_query st db order offset limit tr depth = .ok resp) :
    resp.numCategories ≤ (min limit st.api_media_max_results).toNat ∧
    resp.numCategories ≤ st.api_media_max_results.toNat := by
  unfold index_query at h
  revert h
  cases hob : get_order_by (effOrder order) with
  | error e =>
    intro h
    exact Except.noConfusion h
  | ok ob =>
    intro h
    have hr := Except.ok.inj h
    rw [← hr]
    have h1 : (((sortCats (catLe ob) (if tr then rootsOf db else db)).drop offset.toNat).take
        (min limit st.api_media_max_results).toNat).length ≤
        (min limit st.api_media_max_results).toNat := List.length_take_le _ _
    constructor
    · simp [ApiResponse.numCategories, expandList]
    · have h2 : (min limit st.api_media_max_results).toNat ≤
          st.api_media_max_results.toNat := by omega
      simp only [ApiResponse.numCategories, expandList, List.length_map]
      exact le_trans h1 h2

/-- The flat listing of the demo store. -/
def respFlatDemo : ApiResponse :=
  .listing
    [⟨1, "News", "news", none, 3, none⟩, ⟨2, "Sports", "sports", some 1, 2, none⟩,
     ⟨3, "Dup", "dup-a", none, 0, none⟩, ⟨4, "Dup", "dup-b", none, 0, none⟩]
    4

/-- Claim C6 witness: a requested limit of 100 on the demo store still yields
no more than the configured maximum of 50 records (here, 4). -/
theorem limit_never_exceeds_max_witness :
    index_query stOpen dbDemo none 0 100 false 10 = .ok respFlatDemo ∧
    respFlatDemo.numCategories ≤ ((100 : Int) ⊓ stOpen.api_media_max_results).toNat ∧
    respFlatDemo.numCategories ≤ stOpen.api_media_max_results.toNat := by
  have hob : get_order_by (effOrder none) = .ok ⟨OrderCol.id, false⟩ := rfl
  have h : index_query stOpen dbDemo none 0 100 false 10 = .ok respFlatDemo := by
    simp [index_query, hob, sortCats, insertSorted,
      catLe, colLe, rootsOf, dbDemo, catNews, catSports, catDup1, catDup2, stOpen,
      clampDepth, expandList, expand, info, childrenOf, CatRecord.setChildren,
      respFlatDemo]
  have r := limit_never_exceeds_max stOpen dbDemo none 0 100 false 10 respFlatDemo h
  exact ⟨h, r.1, r.2⟩

/-- Claim C5 counterexample: `list_categories(order="bogus asc")` on the demo
store does NOT return a structured error payload: the `APIException` of
`get_order_by` is uncaught in `index`/`_index_query` (no try/except there) and
escapes the operation as an exception (`Except.error`), reaching the global
handler instead of the caller's payload. -/
theorem order_invalid_uncaught_cex :
    index stOpen dbDemo (some "bogus asc") 0 10 none none none none =
      Except.error "Invalid order column: bogus" := rfl

/-- Claim C5 (amended): a listing whose order string fails `get_order_by`
(e.g. a column outside the allow-list) fails fast — no partial result is
built — but the failure propagates out of `_index_query` and `index` as the
uncaught `APIException`, not as a structured error payload. -/
theorem order_invalid_propagates (st : Settings) (db : List Category)
    (s e : String) (offset limit : Int) (tr : Bool) (depth : Int)
    (api_key : Option String)
    (hs : s ≠ "") (herr : get_order_by s = .error e)
    (hauth : ¬(st.api_secret_key_required ∧ api_key ≠ some st.api_secret_key)) :
    index_query st db (some s) offset limit tr depth = .error e ∧
    index st db (some s) offset limit api_key none none none = .error e := by
  have hq : index_query st db (some s) offset limit tr depth = .error e := by
    unfold index_query
    have heff : effOrder (some s) = s := by
      simp [effOrder, hs]
    rw [heff, herr]
  have hq' : index_query st db (some s) offset limit false 10 = .error e := by
    unfold index_query
    have heff : effOrder (some s) = s := by
      simp [effOrder, hs]
    rw [heff, herr]
  refine ⟨hq, ?_⟩
  unfold index
  rw [if_neg hauth, if_neg (by simp)]
  exact hq'

/-- Claim C5 (amended) witness: the bogus order column on the demo store. -/
theorem order_invalid_propagates_witness :
    ("bogus asc" : String) ≠ "" ∧
    get_order_by "bogus asc" = .error "Invalid order column: bogus" ∧
    index_query stOpen dbDemo (some "bogus asc") 0 10 false 10 =
      .error "Invalid order column: bogus" ∧
    index stOpen dbDemo (some "bogus asc") 0 10 none none none none =
      .error "Invalid order column: bogus" := by
  have r := order_invalid_propagates stOpen dbDemo "bogus asc"
    "Invalid order column: bogus" 0 10 false 10 none (by decide) (by rfl) (by decide)
  exact ⟨by decide, by rfl, r.1, r.2⟩

/-- A category store for the lookup-priority counterexample: one category,
with id 7, named "Target"; no category has id 0. -/
def catTarget : Category := ⟨7, "Target", "target", none, 0⟩

/-- The store holding only `catTarget`. -/
def dbPrio : List Category := [catTarget]

/-- Claim C7 counterexample: with both `id=0` and `name="Target"` supplied,
`id` is non-null, yet the lookup does not use it: no category matches id 0
(the id filter is empty, so an id lookup would answer "No Match found"), but
the operation returns the category matched by NAME — Python truthiness, not
null-ness, decides the priority, and `0` is falsy. -/
theorem lookup_priority_truthiness_cex :
    (filter_by_id dbPrio 0).length = 0 ∧
    get_query stOpen dbPrio (some 0) (some "Target") none false 10 =
      .category (info catTarget) ∧
    index stOpen dbPrio none 0 10 none (some 0) (some "Target") none =
      .ok (.category (info catTarget)) := by
  refine ⟨rfl, ?_, ?_⟩ <;>
    simp [index, get_query, lookup_query, intTruthy, strTruthy, filter_by_id,
      filter_by_name, dbPrio, catTarget, query_one, clampDepth, stOpen, expand, info]

/-- Claim C7 (amended): the lookup key is chosen by Python truthiness in the
priority order `id`, `name`, `slug`: a truthy `id` wins and the other keys are
ignored; with `id` falsy (missing, or supplied as 0) a truthy `name` wins and
the other keys are ignored; with both falsy the lookup filters by `slug`
(even when `slug` is itself missing). -/
theorem lookup_priority_truthy (st : Settings) (db : List Category)
    (id : Option Int) (name name' slug slug' : Option String) (t : Bool) (d : Int) :
    (intTruthy id = true →
      get_query st db id name slug t d = get_query st db id name' slug' t d) ∧
    (intTruthy id = false → strTruthy name = true →
      get_query st db id name slug t d = get_query st db none name slug' t d) ∧
    (intTruthy id = false → strTruthy name = false →
      get_query st db id name slug t d = get_query st db none none slug t d) := by
  have hnone : intTruthy none = false := rfl
  have hsnone : strTruthy none = false := rfl
  refine ⟨?_, ?_, ?_⟩
  · intro hid
    unfold get_query lookup_query
    simp [hid]
  · intro hid hname
    unfold get_query lookup_query
    simp [hid, hname, hnone]
  · intro hid hname
    unfold get_query lookup_query
    simp [hid, hname, hnone, hsnone]

/-- Claim C7 (amended) witness: a truthy id 5 makes the name and slug keys
irrelevant on the demo store. -/
theorem lookup_priority_truthy_witness :
    intTruthy (some 5) = true ∧
    get_query stOpen dbDemo (some 5) (some "News") none false 10 =
      get_query stOpen dbDemo (some 5) none (some "other") false 10 :=
  ⟨by decide,
    (lookup_priority_truthy stOpen dbDemo (some 5) (some "News") none none
      (some "other") false 10).1 (by decide)⟩

/-- Any two non-positive depths produce the same (unexpanded) record. -/
lemma expand_nonpos_eq (db : List Category) (c : Category) (ch : Bool)
    (d d' : Int) (hd : d ≤ 0) (hd' : d' ≤ 0) :
    expand db c ch d = expand db c ch d' := by
  rw [expand_not db c ch d (by omega), expand_not db c ch d' (by omega)]

/-- Any two non-positive depths produce the same expanded list. -/
lemma expandList_nonpos_eq (db : List Category) (cs : List Category) (ch : Bool)
    (d d' : Int) (hd : d ≤ 0) (hd' : d' ≤ 0) :
    expandList db cs ch d = expandList db cs ch d' := by
  induction cs with
  | nil => rfl
  | cons x xs ih =>
    simp only [expandList, List.map_cons, List.map] at ih ⊢
    rw [expand_nonpos_eq db x ch d d' hd hd']
    rw [show (xs.map fun x => expand db x ch d) = xs.map fun x => expand db x ch d' from ih]

/-- A non-positive depth makes `_get_query` behave exactly like depth 0. -/
lemma get_query_nonpos_eq (st : Settings) (db : List Category) (id : Option Int)
    (name slug : Option String) (t : Bool) (d : Int) (hd : d ≤ 0) :
    get_query st db id name slug t d = get_query st db id name slug t 0 := by
  unfold get_query
  cases hq : query_one (lookup_query db id name slug) with
  | error _ => rfl
  | ok c =>
    have h1 : clampDepth st d ≤ 0 := le_trans (min_le_left _ _) hd
    have h2 : clampDepth st 0 ≤ 0 := min_le_left _ _
    dsimp only
    rw [expand_nonpos_eq db c t _ _ h1 h2]

/-- A non-positive depth makes `_index_query` behave exactly like depth 0. -/
lemma index_query_nonpos_eq (st : Settings) (db : List Category)
    (ord : Option String) (off lim : Int) (t : Bool) (d : Int) (hd : d ≤ 0) :
    index_query st db ord off lim t d = index_query st db ord off lim t 0 := by
  unfold index_query
  cases hob : get_order_by (effOrder ord) with
  | error e => rfl
  | ok ob =>
    have h1 : clampDepth st d ≤ 0 := le_trans (min_le_left _ _) hd
    have h2 : clampDepth st 0 ≤ 0 := min_le_left _ _
    dsimp only
    rw [expandList_nonpos_eq db _ t _ _ h1 h2]

/-- Claim C10: a negative (or zero) depth is harmless: the clamp
`min(depth, api_tree_max_depth)` never raises a depth (it only caps values
above the configured maximum), and every operation behaves exactly as with
depth 0 — the expansion attaches no `children` key at all. -/
theorem negative_depth_behaves_like_zero (st : Settings) (db : List Category)
    (id : Option Int) (name slug : Option String) (ord : Option String)
    (off lim : Int) (t ch : Bool) (c : Category) (api_key : Option String)
    (d e : Int) (hd : d ≤ 0) :
    clampDepth st e ≤ e ∧
    (e ≤ st.api_tree_max_depth → clampDepth st e = e) ∧
    expand db c ch d = expand db c ch 0 ∧
    (expand db c ch d).children = none ∧
    get_query st db id name slug t d = get_query st db id name slug t 0 ∧
    index_query st db ord off lim t d = index_query st db ord off lim t 0 ∧
    tree st db d api_key id name slug = tree st db 0 api_key id name slug := by
  refine ⟨min_le_left _ _, fun he => min_eq_left he, ?_, ?_, ?_, ?_, ?_⟩
  · exact expand_nonpos_eq db c ch d 0 hd le_rfl
  · rw [expand_not db c ch d (by omega)]
    rfl
  · exact get_query_nonpos_eq st db id name slug t d hd
  · exact index_query_nonpos_eq st db ord off lim t d hd
  · unfold tree
    by_cases hc : st.api_secret_key_required ∧ api_key ≠ some st.api_secret_key
    · rw [if_pos hc, if_pos hc]
    · rw [if_neg hc, if_neg hc]
      by_cases hp : id.isSome ∨ slug.isSome ∨ name.isSome
      · rw [if_pos hp, if_pos hp, get_query_nonpos_eq st db id name slug true d hd]
      · rw [if_neg hp, if_neg hp, index_query_nonpos_eq st db none 0 10 true d hd]

/-- Claim C10 witness: depth -3 on the demo store behaves like depth 0. -/
theorem negative_depth_behaves_like_zero_witness :
    (-3 : Int) ≤ 0 ∧
    clampDepth stOpen 5 ≤ 5 ∧
    (5 ≤ stOpen.api_tree_max_depth → clampDepth stOpen 5 = 5) ∧
    expand dbDemo catNews true (-3) = expand dbDemo catNews true 0 ∧
    (expand dbDemo catNews true (-3)).children = none ∧
    get_query stOpen dbDemo none none (some "news") true (-3) =
      get_query stOpen dbDemo none none (some "news") true 0 ∧
    index_query stOpen dbDemo none 0 10 true (-3) =
      index_query stOpen dbDemo none 0 10 true 0 ∧
    tree stOpen dbDemo (-3) none none none (some "news") =
      tree stOpen dbDemo 0 none none none (some "news") := by
  have r := negative_depth_behaves_like_zero stOpen dbDemo none none (some "news")
    none 0 10 true true catNews none (-3) 5 (by decide)
  exact ⟨by decide, r.1, r.2.1, r.2.2.1, r.2.2.2.1, r.2.2.2.2.1, r.2.2.2.2.2.1,
    r.2.2.2.2.2.2⟩
